import Mathlib

/-!
# Verification of the sonicar-charts Dashboard component

Shallow embedding of the data-ingestion and template-export logic of
`src/components/Dashboard.tsx` (the `ChartCreator` component), together with
proofs and refutations of the specification's claims about it.

JavaScript strings are modelled as Lean `String`/`List Char`; JavaScript
numbers (IEEE-754 doubles) are modelled by `JSNum`, which distinguishes
`NaN`, the two infinities, and finite values carried as exact rationals.
Real doubles round every finite result to binary64 and overflow to
`Infinity` above ~1.8e308; the exact-rational model agrees with doubles on
every value these claims exercise (small integers and the literal
`Infinity` forms), where no rounding occurs.
-/

/-- A JavaScript number: `NaN`, `±Infinity`, or a finite value (modelled
exactly as a rational; see the module comment on rounding). -/
inductive JSNum where
  | nan
  | posInf
  | negInf
  | num (q : ℚ)
deriving DecidableEq

/-- JavaScript `isNaN` on an already-converted number. -/
def JSNum.isNaN : JSNum → Bool
  | .nan => true
  | _ => false

/-- JavaScript `Number.isFinite`. -/
def JSNum.isFinite : JSNum → Bool
  | .num _ => true
  | _ => false

/-- `type DataPoint = { name: string; value: number }` (Dashboard.tsx line 8). -/
structure DataPoint where
  name : String
  value : JSNum
deriving DecidableEq

/-- `type Template` (Dashboard.tsx lines 9-14). -/
structure Template where
  name : String
  description : String
  format : String
  «example» : List DataPoint
deriving DecidableEq

/-- The characters treated as whitespace by JavaScript's `String.prototype.trim`,
`Number()` conversion, and the regexp class `\s`: tab, LF, VT, FF, CR, space,
NBSP, Ogham space, the U+2000–U+200A spaces, LS, PS, NNBSP, MMSP, ideographic
space, and the BOM. -/
def isJsWhite (c : Char) : Bool :=
  let n := c.toNat
  n == 9 || n == 10 || n == 11 || n == 12 || n == 13 || n == 32 ||
  n == 0xA0 || n == 0x1680 || (0x2000 ≤ n && n ≤ 0x200A) ||
  n == 0x2028 || n == 0x2029 || n == 0x202F || n == 0x205F ||
  n == 0x3000 || n == 0xFEFF

/-- JavaScript `String.prototype.trim` on a character list: drop `isJsWhite`
characters from both ends. -/
def jsTrimList (cs : List Char) : List Char :=
  ((cs.dropWhile isJsWhite).reverse.dropWhile isJsWhite).reverse

/-- JavaScript `String.prototype.trim`. -/
def jsTrim (s : String) : String :=
  String.mk (jsTrimList s.toList)

/-- JavaScript `String.prototype.split` with a single-character separator:
`"".split(s)` is `[""]`, separators at the ends produce empty fields. -/
def splitOnChar (sep : Char) : List Char → List (List Char)
  | [] => [[]]
  | c :: rest =>
    if c = sep then
      [] :: splitOnChar sep rest
    else
      match splitOnChar sep rest with
      | [] => [[c]]
      | h :: t => (c :: h) :: t

/-- Value of a decimal digit character, if it is one. -/
def decDigit? (c : Char) : Option ℕ :=
  if 48 ≤ c.toNat ∧ c.toNat ≤ 57 then some (c.toNat - 48) else none

/-- Value of a hexadecimal digit character, if it is one. -/
def hexDigit? (c : Char) : Option ℕ :=
  if 48 ≤ c.toNat ∧ c.toNat ≤ 57 then some (c.toNat - 48)
  else if 97 ≤ c.toNat ∧ c.toNat ≤ 102 then some (c.toNat - 87)
  else if 65 ≤ c.toNat ∧ c.toNat ≤ 70 then some (c.toNat - 55)
  else none

/-- Value of an octal digit character, if it is one. -/
def octDigit? (c : Char) : Option ℕ :=
  if 48 ≤ c.toNat ∧ c.toNat ≤ 55 then some (c.toNat - 48) else none

/-- Value of a binary digit character, if it is one. -/
def binDigit? (c : Char) : Option ℕ :=
  if 48 ≤ c.toNat ∧ c.toNat ≤ 49 then some (c.toNat - 48) else none

/-- Read a digit string in the given base; `none` when any character is not a
digit of that base. The empty list reads as `some 0` (callers rule it out
where the grammar requires at least one digit). -/
def digitsToNat (base : ℕ) (digit? : Char → Option ℕ) (cs : List Char) : Option ℕ :=
  cs.foldl
    (fun acc c =>
      match acc, digit? c with
      | some n, some d => some (base * n + d)
      | _, _ => none)
    (some 0)

/-- A non-decimal (`0x`/`0o`/`0b`) numeric literal body: at least one digit of
the base and nothing else, per the `StringNumericLiteral` grammar. -/
def parseRadix (base : ℕ) (digit? : Char → Option ℕ) (cs : List Char) : JSNum :=
  if cs = [] then .nan
  else
    match digitsToNat base digit? cs with
    | some n => .num n
    | none => .nan

/-- The optional `ExponentPart` at the end of a decimal literal: the empty
list yields exponent 0; otherwise `e`/`E`, an optional sign, and at least one
decimal digit must consume the whole remainder. -/
def parseExpTail (cs : List Char) : Option ℤ :=
  match cs with
  | [] => some 0
  | c :: rest =>
    if c = 'e' ∨ c = 'E' then
      let signAndDigits : ℤ × List Char :=
        match rest with
        | '+' :: r => (1, r)
        | '-' :: r => (-1, r)
        | r => (1, r)
      if signAndDigits.2 = [] then none
      else
        match digitsToNat 10 decDigit? signAndDigits.2 with
        | some n => some (signAndDigits.1 * n)
        | none => none
    else none

/-- Numeric value of a (known-valid) decimal digit list. -/
def digitsVal (cs : List Char) : ℕ :=
  cs.foldl (fun acc c => 10 * acc + ((decDigit? c).getD 0)) 0

/-- The rational value of the decimal literal `intDs . fracDs × 10^e`:
reading all digits as one integer `m`, it equals `m × 10^(e - |fracDs|)`.
The two branches keep integral results inside `ℤ` so that concrete values
compute by plain integer arithmetic. -/
def decimalValue (intDs fracDs : List Char) (e : ℤ) : ℚ :=
  let m : ℤ := digitsVal (intDs ++ fracDs)
  let e2 : ℤ := e - fracDs.length
  if 0 ≤ e2 then ((m * 10 ^ e2.toNat : ℤ) : ℚ)
  else (m : ℚ) / ((10 ^ (-e2).toNat : ℕ) : ℚ)

/-- An unsigned `StrDecimalLiteral` without the `Infinity` alternative:
`Digits [. Digits] [Exp]` or `. Digits [Exp]`; anything else is `NaN`. -/
def parseDecimal (cs : List Char) : JSNum :=
  let intDs := cs.takeWhile (fun c => (decDigit? c).isSome)
  let rest := cs.dropWhile (fun c => (decDigit? c).isSome)
  match rest with
  | '.' :: rest2 =>
    let fracDs := rest2.takeWhile (fun c => (decDigit? c).isSome)
    let rest3 := rest2.dropWhile (fun c => (decDigit? c).isSome)
    if intDs = [] ∧ fracDs = [] then .nan
    else
      match parseExpTail rest3 with
      | some e => .num (decimalValue intDs fracDs e)
      | none => .nan
  | _ =>
    if intDs = [] then .nan
    else
      match parseExpTail rest with
      | some e => .num (decimalValue intDs [] e)
      | none => .nan

/-- A signed `StrDecimalLiteral`: optional sign, then `Infinity` or an
unsigned decimal literal. -/
def parseSigned (cs : List Char) : JSNum :=
  let negAndRest : Bool × List Char :=
    match cs with
    | '+' :: r => (false, r)
    | '-' :: r => (true, r)
    | r => (false, r)
  if negAndRest.2 = "Infinity".toList then
    if negAndRest.1 then .negInf else .posInf
  else
    match parseDecimal negAndRest.2 with
    | .num q => .num (if negAndRest.1 then -q else q)
    | x => x

/-- JavaScript `Number(string)` (the `StringToNumber` conversion): trim, empty
means 0, `0x`/`0o`/`0b` literals take no sign, otherwise a signed decimal
literal or `Infinity`; anything else is `NaN`. -/
def jsNumberList (cs0 : List Char) : JSNum :=
  match jsTrimList cs0 with
  | [] => .num 0
  | '0' :: x :: rest =>
    if x = 'x' ∨ x = 'X' then parseRadix 16 hexDigit? rest
    else if x = 'o' ∨ x = 'O' then parseRadix 8 octDigit? rest
    else if x = 'b' ∨ x = 'B' then parseRadix 2 binDigit? rest
    else parseSigned ('0' :: x :: rest)
  | cs => parseSigned cs

/-- JavaScript `Number(string)`. -/
def jsNumber (s : String) : JSNum :=
  jsNumberList s.toList

/-- JavaScript number-to-string coercion (template literal `${point.value}`),
exact on integers — the only values `downloadTemplate` ever serializes, since
every template example's value is an integer literal. Non-integral doubles
print as shortest round-trip decimals, which the exact-rational model cannot
express; that branch is never reached in this development. -/
def jsNumToString : JSNum → String
  | .nan => "NaN"
  | .posInf => "Infinity"
  | .negInf => "-Infinity"
  | .num q =>
    if q.den = 1 then
      if q.num < 0 then "-" ++ Nat.repr q.num.natAbs else Nat.repr q.num.natAbs
    else
      Nat.repr q.num.natAbs ++ "/" ++ Nat.repr q.den

/-- The `templates` array entry "Monthly Sales" (Dashboard.tsx lines 17-27). -/
def monthlySales : Template :=
  { name := "Monthly Sales"
    description := "Track monthly sales performance"
    format := "Month (string), Sales Amount (number)"
    «example» := [⟨"Jan", .num 1200⟩, ⟨"Feb", .num 1900⟩, ⟨"Mar", .num 1600⟩,
                  ⟨"Apr", .num 2100⟩] }

/-- The `templates` array entry "Product Categories" (Dashboard.tsx lines 28-38). -/
def productCategories : Template :=
  { name := "Product Categories"
    description := "Compare sales across product categories"
    format := "Category (string), Revenue (number)"
    «example» := [⟨"Electronics", .num 5400⟩, ⟨"Clothing", .num 3200⟩,
                  ⟨"Books", .num 2100⟩, ⟨"Home", .num 4300⟩] }

/-- The `templates` array entry "Weekly Traffic" (Dashboard.tsx lines 39-50). -/
def weeklyTraffic : Template :=
  { name := "Weekly Traffic"
    description := "Website traffic by weekday"
    format := "Day (string), Visitors (number)"
    «example» := [⟨"Mon", .num 2500⟩, ⟨"Tue", .num 3100⟩, ⟨"Wed", .num 3800⟩,
                  ⟨"Thu", .num 3600⟩, ⟨"Fri", .num 3200⟩] }

/-- `const templates: Template[]` (Dashboard.tsx lines 16-51). -/
def templates : List Template :=
  [monthlySales, productCategories, weeklyTraffic]

/-- `addDataPoint` (Dashboard.tsx lines 62-68): when both input strings are
truthy (non-empty), append `{ name: newName, value: Number(newValue) }`;
otherwise do nothing. (The spec calls this operation `appendPoint`.) -/
def addDataPoint (data : List DataPoint) (newName newValue : String) : List DataPoint :=
  if newName ≠ "" ∧ newValue ≠ "" then
    data ++ [⟨newName, jsNumber newValue⟩]
  else
    data

/-- `data.filter((_, i) => i !== index)`: keep the elements whose position
(counted from `k`) differs from `idx`. The position is an integer because
`removeDataPoint` takes an arbitrary JavaScript number as index. -/
def filterIdx (idx : ℤ) : ℕ → List DataPoint → List DataPoint
  | _, [] => []
  | k, p :: rest =>
    if (k : ℤ) ≠ idx then p :: filterIdx idx (k + 1) rest
    else filterIdx idx (k + 1) rest

/-- `removeDataPoint` (Dashboard.tsx lines 70-72):
`setData(data.filter((_, i) => i !== index))`. -/
def removeDataPoint (data : List DataPoint) (index : ℤ) : List DataPoint :=
  filterIdx index 0 data

/-- `loadTemplate` (Dashboard.tsx lines 74-77): replace the dataset with the
template's example data. -/
def loadTemplate (template : Template) : List DataPoint :=
  template.«example»

/-- The per-line body of the CSV import loop (Dashboard.tsx lines 90-99):
trim the line; skip it if empty; split on every comma, trim each part, and
destructure the first two parts as `name` and `valueStr` (a line with no
comma leaves `valueStr` undefined, and `Number(undefined)` is `NaN`); keep
`{ name, value: Number(valueStr) }` unless the value is `NaN`. -/
def parseCsvLine (rawLine : List Char) : Option DataPoint :=
  let line := jsTrimList rawLine
  if line = [] then none
  else
    let parts := (splitOnChar ',' line).map jsTrimList
    match parts[1]? with
    | none => none
    | some valueStr =>
      let value := jsNumberList valueStr
      if value.isNaN then none
      else some ⟨String.mk (parts.headD []), value⟩

/-- The CSV-parsing core of `handleFileUpload` (Dashboard.tsx lines 84-101):
split the file contents on `'\n'`, skip the header line (`i` starts at 1),
and collect the surviving rows in order. (The spec calls this `importCsv`.) -/
def importCsvList (cs : List Char) : List DataPoint :=
  ((splitOnChar '\n' cs).drop 1).filterMap parseCsvLine

/-- `importCsv` on a Lean `String`. -/
def importCsv (content : String) : List DataPoint :=
  importCsvList content.toList

/-- JavaScript `Array.prototype.join('\n')`. -/
def joinLines : List (List Char) → List Char
  | [] => []
  | [x] => x
  | x :: y :: rest => x ++ '\n' :: joinLines (y :: rest)

/-- The file contents built by `downloadTemplate` (Dashboard.tsx lines
111-119): the header `'name,value\n'` followed by the example rows
`` `${point.name},${point.value}` `` joined with `'\n'`. (The spec calls
this operation `downloadTemplateExample`.) -/
def downloadTemplateContent (t : Template) : String :=
  String.mk ("name,value\n".toList ++
    joinLines (t.«example».map fun p => p.name.toList ++ ',' :: (jsNumToString p.value).toList))

/-- JavaScript `String.prototype.toLowerCase`, exact on ASCII (every template
name is ASCII). -/
def toLowerCaseJs (s : String) : String :=
  String.mk (s.toList.map Char.toLower)

/-- JavaScript `replace(/\s+/g, '-')`: each maximal run of `\s` characters
becomes a single hyphen. The boolean records whether the previous character
was part of a whitespace run. -/
def collapseWsAux : Bool → List Char → List Char
  | _, [] => []
  | prevWs, c :: rest =>
    if isJsWhite c then
      if prevWs then collapseWsAux true rest
      else '-' :: collapseWsAux true rest
    else c :: collapseWsAux false rest

/-- The download file name built by `downloadTemplate` (Dashboard.tsx line
123): `` `${selectedTemplate.name.toLowerCase().replace(/\s+/g, '-')}-template.csv` ``. -/
def downloadTemplateFilename (t : Template) : String :=
  String.mk (collapseWsAux false (toLowerCaseJs t.name).toList) ++ "-template.csv"

/-! ## Helper lemmas -/

theorem splitOnChar_append_cons (sep : Char) (xs ys : List Char) (hx : sep ∉ xs) :
    splitOnChar sep (xs ++ sep :: ys) = xs :: splitOnChar sep ys := by
  induction xs with
  | nil => simp [splitOnChar]
  | cons c rest ih =>
    rw [List.mem_cons, not_or] at hx
    have hc : ¬ c = sep := fun h => hx.1 h.symm
    show splitOnChar sep (c :: (rest ++ sep :: ys)) = (c :: rest) :: splitOnChar sep ys
    rw [splitOnChar, if_neg hc, ih hx.2]

theorem parseCsvLine_some_not_nan {l : List Char} {p : DataPoint}
    (h : parseCsvLine l = some p) : p.value.isNaN = false := by
  simp only [parseCsvLine] at h
  split at h
  · exact absurd h (by simp)
  · split at h
    · exact absurd h (by simp)
    · split at h
      · exact absurd h (by simp)
      · rename_i hnan
        cases h
        simpa using hnan

theorem filterIdx_of_ge (idx : ℤ) (d : List DataPoint) :
    ∀ k : ℕ, (idx < k ∨ (k + d.length : ℤ) ≤ idx) → filterIdx idx k d = d := by
  induction d with
  | nil => intro k _; rfl
  | cons p rest ih =>
    intro k hk
    simp only [List.length_cons] at hk
    have hne : (k : ℤ) ≠ idx := by push_cast at hk; omega
    simp only [filterIdx, if_pos hne]
    rw [ih (k + 1) (by push_cast at hk ⊢; omega)]

theorem filterIdx_eq_take_drop (d : List DataPoint) :
    ∀ (k i : ℕ), i < d.length →
      filterIdx ((k : ℤ) + i) k d = d.take i ++ d.drop (i + 1) := by
  induction d with
  | nil => intro k i h; simp at h
  | cons p rest ih =>
    intro k i h
    cases i with
    | zero =>
      have hk : ¬ ((k : ℤ) ≠ (k : ℤ) + (0 : ℕ)) := by push_cast; omega
      simp only [filterIdx, if_neg hk]
      rw [filterIdx_of_ge _ _ (k + 1) (by push_cast; omega)]
      simp
    | succ i =>
      have hk : (k : ℤ) ≠ (k : ℤ) + ((i + 1 : ℕ) : ℤ) := by push_cast; omega
      simp only [filterIdx, if_pos hk]
      have hcast : (k : ℤ) + ((i + 1 : ℕ) : ℤ) = ((k + 1 : ℕ) : ℤ) + (i : ℕ) := by
        push_cast; ring
      rw [hcast, ih (k + 1) i (by simpa using h)]
      simp

/-! ## Claims -/

/-- **C1** (counterexample). The data row `Jan,1200,extra` contains two
commas, yet `importCsv` keeps it — with the value taken from the second
comma-separated field — instead of dropping it as the claim asserts. -/
theorem importCsv_extra_commas_counterexample :
    importCsv "name,value\nJan,1200,extra" = [⟨"Jan", JSNum.num 1200⟩] ∧
    importCsv "name,value\nJan,1200,extra" ≠ [] := by
  constructor
  · decide
  · decide

/-- **C1** (amended). A CSV line containing more than one comma is split on
every comma; the label is the first field, the value text is the second
field alone, and the later fields are ignored — the row is kept exactly when
the second field coerces to a number, not unconditionally dropped. -/
theorem importCsv_extra_commas_amended
    (l pa pb : List Char) (rest : List (List Char))
    (h : (splitOnChar ',' (jsTrimList l)).map jsTrimList = pa :: pb :: rest)
    (_hrest : rest ≠ []) :
    parseCsvLine l =
      if (jsNumberList pb).isNaN then none
      else some ⟨String.mk pa, jsNumberList pb⟩ := by
  have hne : jsTrimList l ≠ [] := by
    intro h0
    rw [h0] at h
    simp [splitOnChar] at h
  simp only [parseCsvLine, if_neg hne, h]
  simp [List.getElem?_cons_succ, List.getElem?_cons_zero]

/-- **C1** witness: the amended theorem applied to the line `Jan,1200,extra`. -/
theorem importCsv_extra_commas_witness :
    (["extra".toList] : List (List Char)) ≠ [] ∧
    parseCsvLine "Jan,1200,extra".toList =
      if (jsNumberList "1200".toList).isNaN then none
      else some ⟨String.mk "Jan".toList, jsNumberList "1200".toList⟩ :=
  ⟨by decide,
   importCsv_extra_commas_amended "Jan,1200,extra".toList "Jan".toList "1200".toList
     ["extra".toList] (by decide) (by decide)⟩

/-- **C2** (counterexample). On the five-line input the parser keeps the
`,300` row as `{name: "", value: 300}`, so the result has three elements,
not the two the claim lists. -/
theorem importCsv_five_line_counterexample :
    importCsv "name,value\nJan,1200\nFeb,abc\n,300\nMar,1600"
      = [⟨"Jan", JSNum.num 1200⟩, ⟨"", JSNum.num 300⟩, ⟨"Mar", JSNum.num 1600⟩] ∧
    importCsv "name,value\nJan,1200\nFeb,abc\n,300\nMar,1600"
      ≠ [⟨"Jan", JSNum.num 1200⟩, ⟨"Mar", JSNum.num 1600⟩] := by
  constructor
  · decide
  · decide

/-- **C2** (amended). The five-line input yields
`[{Jan,1200}, {"",300}, {Mar,1600}]`: the non-numeric row `Feb,abc` is
dropped but the empty-label row `,300` is kept; and the header line is never
included in the result regardless of its content (replacing it by any other
newline-free line leaves the result unchanged). -/
theorem importCsv_five_line_amended (h1 h2 rest : List Char)
    (hh1 : '\n' ∉ h1) (hh2 : '\n' ∉ h2) :
    importCsv "name,value\nJan,1200\nFeb,abc\n,300\nMar,1600"
      = [⟨"Jan", JSNum.num 1200⟩, ⟨"", JSNum.num 300⟩, ⟨"Mar", JSNum.num 1600⟩] ∧
    importCsvList (h1 ++ '\n' :: rest) = importCsvList (h2 ++ '\n' :: rest) := by
  refine ⟨by decide, ?_⟩
  unfold importCsvList
  rw [splitOnChar_append_cons _ _ _ hh1, splitOnChar_append_cons _ _ _ hh2]
  rfl

/-- **C2** witness: the amended theorem applied to the headers `name,value`
and `whatever` over the body `Jan,1200`. -/
theorem importCsv_five_line_witness :
    '\n' ∉ "name,value".toList ∧ '\n' ∉ "whatever".toList ∧
    (importCsv "name,value\nJan,1200\nFeb,abc\n,300\nMar,1600"
      = [⟨"Jan", JSNum.num 1200⟩, ⟨"", JSNum.num 300⟩, ⟨"Mar", JSNum.num 1600⟩] ∧
     importCsvList ("name,value".toList ++ '\n' :: "Jan,1200".toList)
       = importCsvList ("whatever".toList ++ '\n' :: "Jan,1200".toList)) :=
  ⟨by decide, by decide,
   importCsv_five_line_amended "name,value".toList "whatever".toList "Jan,1200".toList
     (by decide) (by decide)⟩

/-- **C3** (counterexample). `importCsv` keeps the row `x,Infinity` with the
non-finite value `Infinity` (JavaScript `isNaN("Infinity")` is false), and
`addDataPoint` with the non-empty but non-numeric value text `abc` inserts a
`NaN` value — so ingestion does not preserve "no NaN or infinite values". -/
theorem ingestion_finite_counterexample :
    importCsv "name,value\nx,Infinity" = [⟨"x", JSNum.posInf⟩] ∧
    JSNum.posInf.isFinite = false ∧
    addDataPoint [] "pt" "abc" = [⟨"pt", JSNum.nan⟩] ∧
    JSNum.nan.isNaN = true := by
  refine ⟨by decide, by decide, ?_, by decide⟩
  rw [addDataPoint, if_pos ⟨by decide, by decide⟩]
  decide

/-- **C3** (amended). `importCsv` preserves the weaker invariant that no
element's value is `NaN`, for every possible input string (rows whose value
field fails numeric coercion are dropped), and `loadTemplate` yields only
finite values; `addDataPoint`, by contrast, checks only that its fields are
non-empty, so it can insert `NaN` or infinite values. -/
theorem importCsv_no_nan (content : String) (p : DataPoint)
    (hp : p ∈ importCsv content) :
    p.value.isNaN = false ∧
    (∀ q ∈ loadTemplate monthlySales, q.value.isFinite = true) ∧
    (∀ q ∈ loadTemplate productCategories, q.value.isFinite = true) ∧
    (∀ q ∈ loadTemplate weeklyTraffic, q.value.isFinite = true) := by
  refine ⟨?_, by decide, by decide, by decide⟩
  unfold importCsv importCsvList at hp
  obtain ⟨l, _, hl⟩ := List.mem_filterMap.mp hp
  exact parseCsvLine_some_not_nan hl

/-- **C3** witness: the amended theorem applied to a one-row import. -/
theorem importCsv_no_nan_witness :
    (⟨"a", JSNum.num 1⟩ : DataPoint) ∈ importCsv "name,value\na,1" ∧
    ((⟨"a", JSNum.num 1⟩ : DataPoint).value.isNaN = false ∧
     (∀ q ∈ loadTemplate monthlySales, q.value.isFinite = true) ∧
     (∀ q ∈ loadTemplate productCategories, q.value.isFinite = true) ∧
     (∀ q ∈ loadTemplate weeklyTraffic, q.value.isFinite = true)) :=
  ⟨by decide, importCsv_no_nan "name,value\na,1" ⟨"a", JSNum.num 1⟩ (by decide)⟩

/-- **C4** (counterexample). The serialized template file for the
"Monthly Sales" template begins with the header line `name,value`, not
`label,value` as the claim states. -/
theorem downloadTemplate_header_counterexample :
    (splitOnChar '\n' (downloadTemplateContent monthlySales).toList).headD []
      = "name,value".toList ∧
    "name,value".toList ≠ "label,value".toList := by
  constructor
  · decide
  · decide

/-- **C4** (amended). For every template, the serialized file's first line is
the fixed header `name,value` (not `label,value`) and the following lines are
the example rows `label,value-text`; the offered file name is the template
name lower-cased with whitespace runs replaced by hyphens, suffixed
`-template.csv`. -/
theorem downloadTemplate_format_amended :
    (splitOnChar '\n' (downloadTemplateContent monthlySales).toList
      = "name,value".toList ::
        monthlySales.«example».map
          (fun p => p.name.toList ++ ',' :: (jsNumToString p.value).toList)) ∧
    (splitOnChar '\n' (downloadTemplateContent productCategories).toList
      = "name,value".toList ::
        productCategories.«example».map
          (fun p => p.name.toList ++ ',' :: (jsNumToString p.value).toList)) ∧
    (splitOnChar '\n' (downloadTemplateContent weeklyTraffic).toList
      = "name,value".toList ::
        weeklyTraffic.«example».map
          (fun p => p.name.toList ++ ',' :: (jsNumToString p.value).toList)) ∧
    downloadTemplateFilename monthlySales = "monthly-sales-template.csv" ∧
    downloadTemplateFilename productCategories = "product-categories-template.csv" ∧
    downloadTemplateFilename weeklyTraffic = "weekly-traffic-template.csv" := by
  refine ⟨by decide, by decide, by decide, by decide, by decide, by decide⟩

/-- **C5**. `downloadTemplate` on the "Monthly Sales" template produces
exactly the text `name,value\nJan,1200\nFeb,1900\nMar,1600\nApr,2100`,
with no trailing newline. -/
theorem downloadTemplate_monthly_sales_content :
    downloadTemplateContent monthlySales
      = "name,value\nJan,1200\nFeb,1900\nMar,1600\nApr,2100" := by
  decide

/-- **C6**. Round-trip: for every template in the fixed `templates` list,
importing the CSV text produced by `downloadTemplate` yields a dataset equal
to the template's example — same elements, same order. -/
theorem importCsv_downloadTemplate_roundtrip :
    templates = [monthlySales, productCategories, weeklyTraffic] ∧
    importCsv (downloadTemplateContent monthlySales) = monthlySales.«example» ∧
    importCsv (downloadTemplateContent productCategories) = productCategories.«example» ∧
    importCsv (downloadTemplateContent weeklyTraffic) = weeklyTraffic.«example» := by
  refine ⟨rfl, by decide, by decide, by decide⟩

/-- **C7**. `addDataPoint` with non-empty label and value texts appends
exactly one element `{name: label, value: Number(rawValue)}` at the end of
the dataset (so the length grows by one and all prior elements are unchanged
in place); with an empty label or an empty value text it leaves the dataset
unchanged. -/
theorem addDataPoint_appends (data : List DataPoint) (label rawValue : String) :
    (label ≠ "" → rawValue ≠ "" →
      addDataPoint data label rawValue = data ++ [⟨label, jsNumber rawValue⟩] ∧
      (addDataPoint data label rawValue).length = data.length + 1) ∧
    (label = "" ∨ rawValue = "" → addDataPoint data label rawValue = data) := by
  constructor
  · intro h1 h2
    rw [addDataPoint, if_pos ⟨h1, h2⟩]
    simp
  · intro h
    rw [addDataPoint, if_neg]
    rintro ⟨h1, h2⟩
    cases h with
    | inl h0 => exact h1 h0
    | inr h0 => exact h2 h0

/-- **C7** witness: appending `{Jan, Number("1200")}` to the empty dataset. -/
theorem addDataPoint_appends_witness :
    ("Jan" : String) ≠ "" ∧ ("1200" : String) ≠ "" ∧
    addDataPoint [] "Jan" "1200" = [] ++ [⟨"Jan", jsNumber "1200"⟩] :=
  ⟨by decide, by decide,
   ((addDataPoint_appends [] "Jan" "1200").1 (by decide) (by decide)).1⟩

/-- **C8**. For every dataset of length `n` and every index `0 ≤ i < n`,
`removeDataPoint i` yields the dataset of length `n - 1` consisting of the
elements before position `i` followed, in order, by the elements after it. -/
theorem removeDataPoint_removes (data : List DataPoint) (i : ℕ)
    (h : i < data.length) :
    removeDataPoint data i = data.take i ++ data.drop (i + 1) ∧
    (removeDataPoint data i).length = data.length - 1 := by
  have key : removeDataPoint data i = data.take i ++ data.drop (i + 1) := by
    have h0 := filterIdx_eq_take_drop data 0 i h
    simpa [removeDataPoint] using h0
  refine ⟨key, ?_⟩
  rw [key]
  rw [List.length_append, List.length_take, List.length_drop]
  omega

/-- **C8** witness: removing index 1 from a three-element dataset. -/
theorem removeDataPoint_removes_witness :
    1 < ([⟨"a", JSNum.num 1⟩, ⟨"b", JSNum.num 2⟩, ⟨"c", JSNum.num 3⟩] :
          List DataPoint).length ∧
    (removeDataPoint [⟨"a", JSNum.num 1⟩, ⟨"b", JSNum.num 2⟩, ⟨"c", JSNum.num 3⟩] 1
       = ([⟨"a", JSNum.num 1⟩, ⟨"b", JSNum.num 2⟩, ⟨"c", JSNum.num 3⟩] :
           List DataPoint).take 1 ++
         ([⟨"a", JSNum.num 1⟩, ⟨"b", JSNum.num 2⟩, ⟨"c", JSNum.num 3⟩] :
           List DataPoint).drop 2 ∧
     (removeDataPoint [⟨"a", JSNum.num 1⟩, ⟨"b", JSNum.num 2⟩, ⟨"c", JSNum.num 3⟩] 1).length
       = ([⟨"a", JSNum.num 1⟩, ⟨"b", JSNum.num 2⟩, ⟨"c", JSNum.num 3⟩] :
           List DataPoint).length - 1) :=
  ⟨by decide,
   removeDataPoint_removes [⟨"a", JSNum.num 1⟩, ⟨"b", JSNum.num 2⟩, ⟨"c", JSNum.num 3⟩]
     1 (by decide)⟩

/-- **C9**. A CSV row whose label field is empty but whose value field
coerces to a number is kept: the row `,300` produces `{name: "", value: 300}`. -/
theorem importCsv_keeps_empty_label :
    importCsv "name,value\n,300" = [⟨"", JSNum.num 300⟩] := by
  decide

/-- **C10**. `removeDataPoint` is total on indices: every index outside
`0 ≤ i < length`, including every negative index, leaves the dataset
unchanged. -/
theorem removeDataPoint_out_of_range (data : List DataPoint) (index : ℤ)
    (h : index < 0 ∨ (data.length : ℤ) ≤ index) :
    removeDataPoint data index = data := by
  apply filterIdx_of_ge index data 0
  push_cast
  omega

/-- **C10** witness: the negative index `-1` and the too-large index `5`
leave a one-element dataset unchanged. -/
theorem removeDataPoint_out_of_range_witness :
    ((-1 : ℤ) < 0 ∨ (([⟨"a", JSNum.num 1⟩] : List DataPoint).length : ℤ) ≤ -1) ∧
    removeDataPoint [⟨"a", JSNum.num 1⟩] (-1) = [⟨"a", JSNum.num 1⟩] :=
  ⟨by decide,
   removeDataPoint_out_of_range [⟨"a", JSNum.num 1⟩] (-1) (by decide)⟩
